import Mathlib

/-
  Verification development for the auto-posting bot (src/bot/bot.py).

  Shallow-embedding conventions:
  - An instant (Python datetime.datetime) is a pair of a proleptic-Gregorian
    ordinal day number (as produced by date.toordinal, so ordinal 1 is
    0001-01-01, a Monday) and a time of day in microseconds.  datetime
    comparison is lexicographic on (day, time of day).
  - A calendar date (Python datetime.date) is a (year, month, day) triple;
    date comparison is lexicographic, matching Python for valid dates.
  - A stored scheduled-time TEXT column value is embedded as TimeStr: either
    a well-formed ISO-8601 timestamp, identified with the instant it denotes
    (datetime.fromisoformat round-trips with datetime.isoformat), or a value
    that datetime.fromisoformat rejects, carrying its raw text.  A raised
    ValueError is embedded as the parse returning none.
  - Python bytes payloads are lists of naturals; Python truthiness of str,
    bytes and None is modelled explicitly where the code relies on it.
  - SQLite ORDER BY on the scheduled-time TEXT column is byte-lexicographic;
    on well-formed ISO strings of this code that coincides with chronological
    order, which is how sortTS orders them.  The order among malformed values
    is abstracted; the theorems that involve a scheduler tick are proved for
    stores with pairwise distinct ids, for which the tick result does not
    depend on that order.
  - Message texts sent to the user are abstracted to Eff tags, one per
    distinct message of the source; inline-keyboard payloads that the claims
    talk about (calendar and time picker) are carried structurally.
    The HTTP transport, the password gate and the database migration and
    repair routines are external collaborators and are not modelled.
-/

/-- An instant: ordinal day (date.toordinal) plus microseconds within the day. -/
structure DT where
  day : Nat
  tod : Nat
deriving DecidableEq

/-- A calendar date (datetime.date). -/
structure Date where
  year : Nat
  month : Nat
  day : Nat
deriving DecidableEq

/-- Python datetime comparison, lexicographic on (ordinal, time of day): strict. -/
def dtLtb (a b : DT) : Bool :=
  a.day < b.day || (a.day == b.day && a.tod < b.tod)

/-- Python datetime comparison, lexicographic on (ordinal, time of day): non-strict. -/
def dtLeb (a b : DT) : Bool :=
  a.day < b.day || (a.day == b.day && a.tod ≤ b.tod)

/-- Python date comparison (lexicographic on year, month, day). -/
def dateLtb (a b : Date) : Bool :=
  a.year < b.year ||
    (a.year == b.year &&
      (a.month < b.month || (a.month == b.month && a.day < b.day)))

/-- Gregorian leap-year test (calendar.isleap). -/
def isLeapYear (y : Nat) : Bool :=
  (y % 4 == 0 && y % 100 != 0) || y % 400 == 0

/-- Days in a Gregorian month (calendar.monthrange). -/
def daysInMonth (y m : Nat) : Nat :=
  if m = 2 then (if isLeapYear y then 29 else 28)
  else if m = 4 ∨ m = 6 ∨ m = 9 ∨ m = 11 then 30
  else 31

/-- Days in the months of year y strictly before month m. -/
def daysBeforeMonth (y m : Nat) : Nat :=
  ((List.range (m - 1)).map (fun i => daysInMonth y (i + 1))).sum

/-- Proleptic-Gregorian ordinal of a date (date.toordinal); ordinal 1 is 0001-01-01. -/
def toOrdinal (y m d : Nat) : Nat :=
  365 * (y - 1) + (y - 1) / 4 - (y - 1) / 100 + (y - 1) / 400 + daysBeforeMonth y m + d

/-- datetime.weekday on an ordinal: Monday is 0 through Sunday 6 (ordinal 1 is a Monday). -/
def pyWeekday (d : Nat) : Nat := (d + 6) % 7

/-- The while loop of _get_next_weekday: keep adding one day while the day
falls on Saturday (weekday 5) or Sunday (weekday 6). -/
def skipWeekend (d : Nat) : Nat :=
  if h : pyWeekday d ≥ 5 then skipWeekend (d + 1) else d
termination_by (7 - pyWeekday d) % 7
decreasing_by
  unfold pyWeekday at h ⊢
  omega

/-- _get_next_weekday: start with tomorrow, then skip weekend days, preserving
the time of day. -/
def _get_next_weekday (t : DT) : DT :=
  { day := skipWeekend (t.day + 1), tod := t.tod }

theorem pyWeekday_succ (d : Nat) : pyWeekday (d + 1) = (pyWeekday d + 1) % 7 := by
  unfold pyWeekday
  omega

theorem skipWeekend_of_ge (d : Nat) (h : pyWeekday d ≥ 5) :
    skipWeekend d = skipWeekend (d + 1) := by
  conv_lhs => rw [skipWeekend]
  rw [dif_pos h]

theorem skipWeekend_of_lt (d : Nat) (h : pyWeekday d < 5) :
    skipWeekend d = d := by
  conv_lhs => rw [skipWeekend]
  rw [dif_neg (by omega)]

theorem skipWeekend_spec (d : Nat) :
    skipWeekend d =
      if pyWeekday d = 5 then d + 2
      else if pyWeekday d = 6 then d + 1
      else d := by
  have h1 := pyWeekday_succ d
  have h2 := pyWeekday_succ (d + 1)
  have hlt : pyWeekday d < 7 := by unfold pyWeekday; omega
  by_cases h5 : pyWeekday d = 5
  · have e1 := skipWeekend_of_ge d (by omega)
    have e2 := skipWeekend_of_ge (d + 1) (by omega)
    have e3 := skipWeekend_of_lt (d + 1 + 1) (by omega)
    rw [e1, e2, e3, if_pos h5]
  · by_cases h6 : pyWeekday d = 6
    · have e1 := skipWeekend_of_ge d (by omega)
      have e2 := skipWeekend_of_lt (d + 1) (by omega)
      rw [e1, e2, if_neg h5, if_pos h6]
    · have e1 := skipWeekend_of_lt d (by omega)
      rw [e1, if_neg h5, if_neg h6]

/-- C1: the next-weekday recurrence applied to any instant preserves the time
of day exactly, lands strictly after the input on a Monday-through-Friday day,
every day skipped in between is a Saturday or Sunday, a Friday input moves
three days ahead (the following Monday), and a Wednesday input moves one day
ahead (Thursday). -/
theorem C1_next_weekday (t : DT) :
    (_get_next_weekday t).tod = t.tod
    ∧ pyWeekday (_get_next_weekday t).day < 5
    ∧ t.day < (_get_next_weekday t).day
    ∧ (∀ d, t.day < d → d < (_get_next_weekday t).day → pyWeekday d ≥ 5)
    ∧ (pyWeekday t.day = 4 → (_get_next_weekday t).day = t.day + 3)
    ∧ (pyWeekday t.day = 2 → (_get_next_weekday t).day = t.day + 1) := by
  have hs := skipWeekend_spec (t.day + 1)
  have hres : (_get_next_weekday t).day = skipWeekend (t.day + 1) := rfl
  refine ⟨rfl, ?_, ?_, ?_, ?_, ?_⟩
  · rw [hres, hs]
    split
    · unfold pyWeekday at *; omega
    · split
      · unfold pyWeekday at *; omega
      · unfold pyWeekday at *; omega
  · rw [hres, hs]
    split
    · omega
    · split
      · omega
      · omega
  · intro d hd1 hd2
    rw [hres, hs] at hd2
    revert hd2
    split
    · intro hd2; unfold pyWeekday at *; omega
    · split
      · intro hd2; unfold pyWeekday at *; omega
      · intro hd2; omega
  · intro hfri
    rw [hres, hs]
    split
    · omega
    · unfold pyWeekday at *; omega
  · intro hwed
    rw [hres, hs]
    split
    · unfold pyWeekday at *; omega
    · split
      · unfold pyWeekday at *; omega
      · omega

/-- Witness for C1 at a concrete Friday 09:00 instant: ordinal 5 is a Friday
(weekday 4), and the recurrence sends it to ordinal 8 (the following Monday)
with the time of day intact. -/
theorem C1_next_weekday_witness :
    (_get_next_weekday ⟨5, 32400000000⟩).day = 8
    ∧ (_get_next_weekday ⟨5, 32400000000⟩).tod = 32400000000 := by
  have h := C1_next_weekday ⟨5, 32400000000⟩
  exact ⟨by rw [h.2.2.2.2.1 (by decide)], h.1⟩

/-! ## The post store -/

/-- Python bytes payloads. -/
abbrev Bytes := List Nat

/-- A value of the scheduled_time TEXT column: either a well-formed ISO-8601
timestamp, identified with the instant it denotes, or a text that
datetime.fromisoformat rejects. -/
inductive TimeStr where
  | iso (t : DT)
  | invalid (s : String)
deriving DecidableEq

/-- datetime.fromisoformat on a stored scheduled_time value; a raised
ValueError is embedded as none. -/
def fromisoformat : TimeStr → Option DT
  | .iso t => some t
  | .invalid _ => none

/-- datetime.isoformat: renders an instant as a well-formed ISO string. -/
def isoformat (t : DT) : TimeStr := .iso t

/-- A row of the posts table. -/
structure Post where
  id : Nat
  content : String
  photo_data : Option Bytes
  photo_filename : Option String
  scheduled_time : TimeStr
  is_recurring : Bool
  is_posted : Bool
  created_at : String
deriving DecidableEq

/-- The optional-field bundle accepted by update_post (its kwargs). -/
structure PostUpdate where
  content : Option String := none
  photo_data : Option (Option Bytes) := none
  photo_filename : Option (Option String) := none
  scheduled_time : Option TimeStr := none
  is_recurring : Option Bool := none
  is_posted : Option Bool := none

/-- Apply an UPDATE row assignment: fields present in the update replace the
stored ones, all other columns keep their values. -/
def applyUpdate (u : PostUpdate) (p : Post) : Post :=
  { p with
    content := u.content.getD p.content
    photo_data := u.photo_data.getD p.photo_data
    photo_filename := u.photo_filename.getD p.photo_filename
    scheduled_time := u.scheduled_time.getD p.scheduled_time
    is_recurring := u.is_recurring.getD p.is_recurring
    is_posted := u.is_posted.getD p.is_posted }

/-- update_post: UPDATE posts SET ... WHERE id = i. -/
def update_post (posts : List Post) (i : Nat) (u : PostUpdate) : List Post :=
  posts.map (fun p => if p.id = i then applyUpdate u p else p)

/-- Whether an UPDATE matched a row (cursor.rowcount is positive). -/
def updateFound (posts : List Post) (i : Nat) : Bool :=
  posts.any (fun p => p.id == i)

/-- mark_post_as_posted: update_post with is_posted set to 1. -/
def mark_post_as_posted (posts : List Post) (i : Nat) : List Post :=
  update_post posts i { is_posted := some true }

/-- SELECT ... WHERE id lookup into the posts table. -/
def getPost : List Post → Nat → Option Post
  | [], _ => none
  | p :: ps, i => if p.id = i then some p else getPost ps i

/-- ORDER BY scheduled_time on the TEXT column: chronological on well-formed
ISO strings; malformed strings compare by their text and sort after the
well-formed ones here (the exact interleaving is abstracted, see header). -/
def tsLeb : TimeStr → TimeStr → Bool
  | .iso a, .iso b => dtLeb a b
  | .iso _, .invalid _ => true
  | .invalid _, .iso _ => false
  | .invalid a, .invalid b => !decide (b < a)

/-- Ordered insertion for the ORDER BY scheduled_time sort. -/
def insertTS (p : Post) : List Post → List Post
  | [] => [p]
  | q :: qs =>
    if tsLeb p.scheduled_time q.scheduled_time then p :: q :: qs
    else q :: insertTS p qs

/-- The ORDER BY scheduled_time sort. -/
def sortTS (l : List Post) : List Post := l.foldr insertTS []

/-- get_posts: all posts, or only unposted ones, ordered by scheduled_time. -/
def get_posts (posts : List Post) (include_posted : Bool) : List Post :=
  if include_posted then sortTS posts
  else sortTS (posts.filter (fun p => !p.is_posted))

/-- delete_post: DELETE WHERE id, plus the rowcount flag. -/
def delete_post (posts : List Post) (i : Nat) : List Post × Bool :=
  (posts.filter (fun p => p.id != i), posts.any (fun p => p.id == i))

/-- _publish_post, restricted to its store effect: given the snapshot row p
and the outcome ok of the send, the database mutation performed.  On success
a recurring post with a parseable scheduled_time is rescheduled to the next
weekday with is_posted set back to 0; a recurring post whose reschedule
computation raises is marked posted to stop retries; a non-recurring post is
marked posted; on failure nothing is written. -/
def _publish_post (posts : List Post) (p : Post) (ok : Bool) : List Post :=
  if ok then
    if p.is_recurring then
      match fromisoformat p.scheduled_time with
      | some t =>
          update_post posts p.id
            { scheduled_time := some (isoformat (_get_next_weekday t)),
              is_posted := some false }
      | none => mark_post_as_posted posts p.id
    else mark_post_as_posted posts p.id
  else posts

/-- The per-row outcome of _publish_post on the row it targets. -/
def pubRecordResult (p : Post) (ok : Bool) : Post :=
  if ok then
    if p.is_recurring then
      match fromisoformat p.scheduled_time with
      | some t =>
          { p with scheduled_time := isoformat (_get_next_weekday t),
                   is_posted := false }
      | none => { p with is_posted := true }
    else { p with is_posted := true }
  else p

/-- The loop body of _check_and_publish_posts over the snapshot returned by
get_posts: a row whose scheduled_time does not parse is skipped (the raised
error is caught and the loop continues); a parseable row that is due is
published. -/
def tickLoop (now : DT) (pubOk : Nat → Bool) : List Post → List Post → List Post
  | [], store => store
  | p :: rest, store =>
      tickLoop now pubOk rest
        (match fromisoformat p.scheduled_time with
         | none => store
         | some t => if dtLeb t now then _publish_post store p (pubOk p.id) else store)

/-- _check_and_publish_posts: one scheduler tick.  pubOk gives, per post id,
the outcome of the external send call. -/
def _check_and_publish_posts (now : DT) (pubOk : Nat → Bool) (posts : List Post) : List Post :=
  tickLoop now pubOk (get_posts posts false) posts

/-- What one tick does to a single unposted row, in isolation. -/
def tickRecordResult (now : DT) (pubOk : Nat → Bool) (p : Post) : Post :=
  match fromisoformat p.scheduled_time with
  | none => p
  | some t => if dtLeb t now then pubRecordResult p (pubOk p.id) else p

theorem applyUpdate_id (u : PostUpdate) (p : Post) : (applyUpdate u p).id = p.id := rfl

theorem getPost_id (posts : List Post) (i : Nat) (q : Post)
    (h : getPost posts i = some q) : q.id = i := by
  induction posts with
  | nil => cases h
  | cons p ps ih =>
    by_cases hp : p.id = i
    · simp only [getPost, if_pos hp] at h
      cases h
      exact hp
    · simp only [getPost, if_neg hp] at h
      exact ih h

theorem getPost_update_post (posts : List Post) (j : Nat) (u : PostUpdate) (i : Nat) :
    getPost (update_post posts j u) i
      = (getPost posts i).map (fun q => if q.id = j then applyUpdate u q else q) := by
  induction posts with
  | nil => rfl
  | cons p ps ih =>
    simp only [update_post, List.map_cons] at ih ⊢
    by_cases hj : p.id = j
    · by_cases hi : p.id = i
      · have hji : j = i := by rw [← hj, hi]
        simp [getPost, hj, hi, hji, applyUpdate_id]
      · have hji : ¬(j = i) := fun he => hi (by rw [hj, he])
        simp [getPost, hj, hi, hji, applyUpdate_id, ih]
    · by_cases hi : p.id = i
      · have hij : ¬(i = j) := fun he => hj (by rw [hi, he])
        simp [getPost, hj, hi, hij]
      · simp [getPost, hj, hi, ih]

theorem getPost_publish_other (posts : List Post) (p : Post) (ok : Bool) (i : Nat)
    (h : p.id ≠ i) :
    getPost (_publish_post posts p ok) i = getPost posts i := by
  have key : ∀ u, getPost (update_post posts p.id u) i = getPost posts i := by
    intro u
    rw [getPost_update_post]
    cases hq : getPost posts i with
    | none => rfl
    | some q =>
      have hqi := getPost_id posts i q hq
      have hne : ¬(q.id = p.id) := by
        rw [hqi]
        exact fun he => h he.symm
      simp [hne]
  cases ok with
  | false => rfl
  | true =>
    cases hr : p.is_recurring with
    | false => simpa [_publish_post, mark_post_as_posted, hr] using key _
    | true =>
      cases hf : fromisoformat p.scheduled_time with
      | none => simpa [_publish_post, mark_post_as_posted, hr, hf] using key _
      | some t => simpa [_publish_post, mark_post_as_posted, hr, hf] using key _

theorem getPost_publish_self (posts : List Post) (p : Post) (ok : Bool)
    (h : getPost posts p.id = some p) :
    getPost (_publish_post posts p ok) p.id = some (pubRecordResult p ok) := by
  have key : ∀ u, getPost (update_post posts p.id u) p.id = some (applyUpdate u p) := by
    intro u
    rw [getPost_update_post, h]
    simp
  cases ok with
  | false => simpa [_publish_post, pubRecordResult] using h
  | true =>
    cases hr : p.is_recurring with
    | false =>
      simp [_publish_post, pubRecordResult, mark_post_as_posted, hr, key, applyUpdate]
    | true =>
      cases hf : fromisoformat p.scheduled_time with
      | none =>
        simp [_publish_post, pubRecordResult, mark_post_as_posted, hr, hf, key, applyUpdate]
      | some t =>
        simp [_publish_post, pubRecordResult, mark_post_as_posted, hr, hf, key, applyUpdate]

theorem insertTS_perm (p : Post) (l : List Post) : (insertTS p l).Perm (p :: l) := by
  induction l with
  | nil => exact List.Perm.refl _
  | cons q qs ih =>
    by_cases h : tsLeb p.scheduled_time q.scheduled_time
    · simp only [insertTS, if_pos h]
      exact List.Perm.refl _
    · simp only [insertTS, if_neg h]
      exact (ih.cons q).trans (List.Perm.swap p q qs)

theorem sortTS_perm (l : List Post) : (sortTS l).Perm l := by
  induction l with
  | nil => exact List.Perm.refl _
  | cons p ps ih =>
    simp only [sortTS, List.foldr_cons]
    exact (insertTS_perm p _).trans (ih.cons p)

theorem getPost_of_mem (posts : List Post) (p : Post)
    (hnd : (posts.map Post.id).Nodup) (hm : p ∈ posts) :
    getPost posts p.id = some p := by
  induction posts with
  | nil => cases hm
  | cons q rest ih =>
    simp only [List.map_cons, List.nodup_cons] at hnd
    rcases List.mem_cons.mp hm with rfl | hm'
    · simp [getPost]
    · have hq : ¬(q.id = p.id) := by
        intro he
        exact hnd.1 (he ▸ List.mem_map_of_mem Post.id hm')
      simp only [getPost, if_neg hq]
      exact ih hnd.2 hm'

theorem tickLoop_untouched (now : DT) (pubOk : Nat → Bool)
    (snap : List Post) (store : List Post) (i : Nat)
    (h : ∀ p ∈ snap, p.id ≠ i) :
    getPost (tickLoop now pubOk snap store) i = getPost store i := by
  induction snap generalizing store with
  | nil => rfl
  | cons p rest ih =>
    have hpi : p.id ≠ i := h p (List.mem_cons_self p rest)
    have hrest : ∀ q ∈ rest, q.id ≠ i := fun q hq => h q (List.mem_cons_of_mem p hq)
    simp only [tickLoop]
    rw [ih _ hrest]
    cases hf : fromisoformat p.scheduled_time with
    | none => rfl
    | some t =>
      by_cases hd : dtLeb t now
      · simp only [if_pos hd]
        exact getPost_publish_other store p _ i hpi
      · simp only [if_neg hd]

theorem tickLoop_processed (now : DT) (pubOk : Nat → Bool)
    (snap : List Post) (store : List Post) (p : Post)
    (hmem : p ∈ snap) (hnd : (snap.map Post.id).Nodup)
    (hstore : getPost store p.id = some p) :
    getPost (tickLoop now pubOk snap store) p.id
      = some (tickRecordResult now pubOk p) := by
  induction snap generalizing store with
  | nil => cases hmem
  | cons q rest ih =>
    simp only [List.map_cons, List.nodup_cons] at hnd
    rcases List.mem_cons.mp hmem with rfl | hmem'
    · have hrest : ∀ r ∈ rest, r.id ≠ p.id := by
        intro r hr he
        exact hnd.1 (he ▸ List.mem_map_of_mem Post.id hr)
      simp only [tickLoop]
      rw [tickLoop_untouched now pubOk rest _ p.id hrest]
      unfold tickRecordResult
      cases hf : fromisoformat p.scheduled_time with
      | none => exact hstore
      | some t =>
        by_cases hd : dtLeb t now
        · simp only [if_pos hd]
          exact getPost_publish_self store p _ hstore
        · simp only [if_neg hd]
          exact hstore
    · have hq : q.id ≠ p.id := by
        intro he
        exact hnd.1 (he ▸ List.mem_map_of_mem Post.id hmem')
      simp only [tickLoop]
      refine ih _ hmem' hnd.2 ?_
      cases hf : fromisoformat q.scheduled_time with
      | none => exact hstore
      | some t =>
        by_cases hd : dtLeb t now
        · simp only [if_pos hd]
          rw [getPost_publish_other store q _ p.id hq]
          exact hstore
        · simp only [if_neg hd]
          exact hstore

/-- The snapshot taken by a tick: membership is exactly the unposted rows. -/
theorem mem_tick_snapshot (posts : List Post) (p : Post) :
    p ∈ get_posts posts false ↔ p ∈ posts ∧ p.is_posted = false := by
  unfold get_posts
  rw [if_neg (by simp), (sortTS_perm _).mem_iff, List.mem_filter]
  simp

/-- The snapshot taken by a tick keeps ids distinct when the store has
distinct ids. -/
theorem tick_snapshot_nodup (posts : List Post)
    (hnd : (posts.map Post.id).Nodup) :
    ((get_posts posts false).map Post.id).Nodup := by
  unfold get_posts
  rw [if_neg (by simp)]
  have hperm := (sortTS_perm (posts.filter (fun p => !p.is_posted))).map Post.id
  refine hperm.nodup_iff.mpr ?_
  exact ((List.filter_sublist posts).map Post.id).nodup hnd

/-- One tick, seen per row: with pairwise distinct ids, every unposted row
ends up at tickRecordResult and every posted row is untouched. -/
theorem tick_per_row (now : DT) (pubOk : Nat → Bool) (posts : List Post) (p : Post)
    (hnd : (posts.map Post.id).Nodup) (hm : p ∈ posts) (hunp : p.is_posted = false) :
    getPost (_check_and_publish_posts now pubOk posts) p.id
      = some (tickRecordResult now pubOk p) := by
  unfold _check_and_publish_posts
  apply tickLoop_processed
  · exact (mem_tick_snapshot posts p).mpr ⟨hm, hunp⟩
  · exact tick_snapshot_nodup posts hnd
  · exact getPost_of_mem posts p hnd hm

/-- C2: on a successful publish of a recurring post whose stored scheduled
instant parses to T, the stored row afterwards carries exactly
nextWeekday(T) — computed from the just-elapsed T — as its scheduled instant
and has posted = false, and therefore re-enters the pool of unposted posts
that the due query returns. -/
theorem mem_of_getPost (store : List Post) (i : Nat) (q : Post)
    (h : getPost store i = some q) : q ∈ store := by
  induction store with
  | nil => cases h
  | cons r rs ih =>
    by_cases hr : r.id = i
    · rw [getPost, if_pos hr] at h
      cases h
      exact List.mem_cons_self _ _
    · rw [getPost, if_neg hr] at h
      exact List.mem_cons_of_mem _ (ih h)

theorem C2_recurring_reschedule (posts : List Post) (p : Post) (T : DT)
    (hnd : (posts.map Post.id).Nodup) (hm : p ∈ posts)
    (hrec : p.is_recurring = true)
    (hT : fromisoformat p.scheduled_time = some T) :
    getPost (_publish_post posts p true) p.id
      = some { p with scheduled_time := isoformat (_get_next_weekday T),
                      is_posted := false }
    ∧ { p with scheduled_time := isoformat (_get_next_weekday T),
               is_posted := false }
        ∈ (_publish_post posts p true).filter (fun q => !q.is_posted) := by
  have hself := getPost_publish_self posts p true (getPost_of_mem posts p hnd hm)
  have hres : pubRecordResult p true
      = { p with scheduled_time := isoformat (_get_next_weekday T),
                 is_posted := false } := by
    simp [pubRecordResult, hrec, hT]
  rw [hres] at hself
  refine ⟨hself, ?_⟩
  rw [List.mem_filter]
  exact ⟨mem_of_getPost _ _ _ hself, by simp⟩

/-- Witness for C2 on a concrete one-row store. -/
theorem C2_recurring_reschedule_witness :
    getPost
        (_publish_post
          [{ id := 1, content := "hello", photo_data := none, photo_filename := none,
             scheduled_time := TimeStr.iso ⟨5, 100⟩, is_recurring := true,
             is_posted := false, created_at := "" }]
          { id := 1, content := "hello", photo_data := none, photo_filename := none,
            scheduled_time := TimeStr.iso ⟨5, 100⟩, is_recurring := true,
            is_posted := false, created_at := "" }
          true) 1
      = some { id := 1, content := "hello", photo_data := none, photo_filename := none,
               scheduled_time := TimeStr.iso ⟨8, 100⟩, is_recurring := true,
               is_posted := false, created_at := "" } := by
  have h := C2_recurring_reschedule
    [{ id := 1, content := "hello", photo_data := none, photo_filename := none,
       scheduled_time := TimeStr.iso ⟨5, 100⟩, is_recurring := true,
       is_posted := false, created_at := "" }]
    { id := 1, content := "hello", photo_data := none, photo_filename := none,
      scheduled_time := TimeStr.iso ⟨5, 100⟩, is_recurring := true,
      is_posted := false, created_at := "" }
    ⟨5, 100⟩ (by decide) (by simp) rfl rfl
  rw [h.1]
  have hnext : _get_next_weekday ⟨5, 100⟩ = ⟨8, 100⟩ := by
    show DT.mk (skipWeekend (5 + 1)) 100 = ⟨8, 100⟩
    rw [skipWeekend_spec]
    decide
  rw [hnext]
  rfl

/-- C3: on a successful publish of a non-recurring post, the stored row
afterwards has posted = true and every other column — in particular the
scheduled instant, the content and the photo columns — is unchanged. -/
theorem C3_nonrecurring_mark (posts : List Post) (p : Post)
    (hnd : (posts.map Post.id).Nodup) (hm : p ∈ posts)
    (hrec : p.is_recurring = false) :
    getPost (_publish_post posts p true) p.id = some { p with is_posted := true }
    ∧ (Post.mk p.id p.content p.photo_data p.photo_filename p.scheduled_time
        p.is_recurring true p.created_at).scheduled_time = p.scheduled_time := by
  have hself := getPost_publish_self posts p true (getPost_of_mem posts p hnd hm)
  have hres : pubRecordResult p true = { p with is_posted := true } := by
    simp [pubRecordResult, hrec]
  rw [hres] at hself
  exact ⟨hself, rfl⟩

/-- Witness for C3 on a concrete one-row store. -/
theorem C3_nonrecurring_mark_witness :
    getPost
        (_publish_post
          [{ id := 2, content := "bye", photo_data := some [7], photo_filename := some "p.jpg",
             scheduled_time := TimeStr.iso ⟨5, 100⟩, is_recurring := false,
             is_posted := false, created_at := "c" }]
          { id := 2, content := "bye", photo_data := some [7], photo_filename := some "p.jpg",
            scheduled_time := TimeStr.iso ⟨5, 100⟩, is_recurring := false,
            is_posted := false, created_at := "c" }
          true) 2
      = some { id := 2, content := "bye", photo_data := some [7], photo_filename := some "p.jpg",
               scheduled_time := TimeStr.iso ⟨5, 100⟩, is_recurring := false,
               is_posted := true, created_at := "c" } :=
  (C3_nonrecurring_mark
    [{ id := 2, content := "bye", photo_data := some [7], photo_filename := some "p.jpg",
       scheduled_time := TimeStr.iso ⟨5, 100⟩, is_recurring := false,
       is_posted := false, created_at := "c" }]
    { id := 2, content := "bye", photo_data := some [7], photo_filename := some "p.jpg",
      scheduled_time := TimeStr.iso ⟨5, 100⟩, is_recurring := false,
      is_posted := false, created_at := "c" }
    (by decide) (by simp) rfl).1

/-- C9: if a recurring post publishes successfully but the reschedule
computation raises (the stored scheduled instant no longer parses), the row
is marked posted = true, so it leaves the unposted pool and its recurrence
terminates. -/
theorem C9_recurring_reschedule_failure (posts : List Post) (p : Post)
    (hnd : (posts.map Post.id).Nodup) (hm : p ∈ posts)
    (hrec : p.is_recurring = true)
    (hbad : fromisoformat p.scheduled_time = none) :
    getPost (_publish_post posts p true) p.id = some { p with is_posted := true }
    ∧ ∀ q ∈ (_publish_post posts p true).filter (fun r => !r.is_posted),
        q.id ≠ p.id := by
  have hself := getPost_publish_self posts p true (getPost_of_mem posts p hnd hm)
  have hres : pubRecordResult p true = { p with is_posted := true } := by
    simp [pubRecordResult, hrec, hbad]
  rw [hres] at hself
  refine ⟨hself, ?_⟩
  intro q hq he
  rw [List.mem_filter] at hq
  have hnd' : ((_publish_post posts p true).map Post.id).Nodup := by
    have : _publish_post posts p true
        = update_post posts p.id { is_posted := some true } := by
      simp [_publish_post, mark_post_as_posted, hrec, hbad]
    rw [this]
    unfold update_post
    rw [List.map_map]
    have hfun : (Post.id ∘ fun r => if r.id = p.id then applyUpdate { is_posted := some true } r else r)
        = Post.id := by
      funext r
      by_cases hr : r.id = p.id <;> simp [hr, applyUpdate_id]
    rw [hfun]
    exact hnd
  have hq' := getPost_of_mem _ q hnd' hq.1
  rw [he, hself] at hq'
  cases hq'
  simp at hq

/-- Witness for C9 on a concrete one-row store with a corrupt timestamp. -/
theorem C9_recurring_reschedule_failure_witness :
    getPost
        (_publish_post
          [{ id := 3, content := "x", photo_data := none, photo_filename := none,
             scheduled_time := TimeStr.invalid "not a date", is_recurring := true,
             is_posted := false, created_at := "" }]
          { id := 3, content := "x", photo_data := none, photo_filename := none,
            scheduled_time := TimeStr.invalid "not a date", is_recurring := true,
            is_posted := false, created_at := "" }
          true) 3
      = some { id := 3, content := "x", photo_data := none, photo_filename := none,
               scheduled_time := TimeStr.invalid "not a date", is_recurring := true,
               is_posted := true, created_at := "" } :=
  (C9_recurring_reschedule_failure
    [{ id := 3, content := "x", photo_data := none, photo_filename := none,
       scheduled_time := TimeStr.invalid "not a date", is_recurring := true,
       is_posted := false, created_at := "" }]
    { id := 3, content := "x", photo_data := none, photo_filename := none,
      scheduled_time := TimeStr.invalid "not a date", is_recurring := true,
      is_posted := false, created_at := "" }
    (by decide) (by simp) rfl rfl).1

/-- C6: in one scheduler tick over a store with distinct ids, a row whose
stored scheduled instant does not parse is skipped: afterwards it is still
stored completely unchanged (in particular still unposted), and every other
unposted row is still processed exactly as the tick processes it in
isolation. -/
theorem C6_corrupt_row_skipped (now : DT) (pubOk : Nat → Bool)
    (posts : List Post) (p : Post)
    (hnd : (posts.map Post.id).Nodup) (hm : p ∈ posts)
    (hunp : p.is_posted = false)
    (hbad : fromisoformat p.scheduled_time = none) :
    getPost (_check_and_publish_posts now pubOk posts) p.id = some p
    ∧ ∀ q ∈ posts, q.is_posted = false →
        getPost (_check_and_publish_posts now pubOk posts) q.id
          = some (tickRecordResult now pubOk q) := by
  constructor
  · have h := tick_per_row now pubOk posts p hnd hm hunp
    rw [tickRecordResult, hbad] at h
    exact h
  · intro q hq hqunp
    exact tick_per_row now pubOk posts q hnd hq hqunp

/-- Witness for C6: a two-row store, one corrupt and one due, after one tick:
the corrupt row is unchanged, the due non-recurring row is marked posted. -/
theorem C6_corrupt_row_skipped_witness :
    getPost
        (_check_and_publish_posts ⟨10, 0⟩ (fun _ => true)
          [{ id := 1, content := "bad", photo_data := none, photo_filename := none,
             scheduled_time := TimeStr.invalid "garbage", is_recurring := false,
             is_posted := false, created_at := "" },
           { id := 2, content := "due", photo_data := none, photo_filename := none,
             scheduled_time := TimeStr.iso ⟨5, 0⟩, is_recurring := false,
             is_posted := false, created_at := "" }]) 1
      = some { id := 1, content := "bad", photo_data := none, photo_filename := none,
               scheduled_time := TimeStr.invalid "garbage", is_recurring := false,
               is_posted := false, created_at := "" }
    ∧ getPost
        (_check_and_publish_posts ⟨10, 0⟩ (fun _ => true)
          [{ id := 1, content := "bad", photo_data := none, photo_filename := none,
             scheduled_time := TimeStr.invalid "garbage", is_recurring := false,
             is_posted := false, created_at := "" },
           { id := 2, content := "due", photo_data := none, photo_filename := none,
             scheduled_time := TimeStr.iso ⟨5, 0⟩, is_recurring := false,
             is_posted := false, created_at := "" }]) 2
      = some { id := 2, content := "due", photo_data := none, photo_filename := none,
               scheduled_time := TimeStr.iso ⟨5, 0⟩, is_recurring := false,
               is_posted := true, created_at := "" } := by
  have h := C6_corrupt_row_skipped ⟨10, 0⟩ (fun _ => true)
    [{ id := 1, content := "bad", photo_data := none, photo_filename := none,
       scheduled_time := TimeStr.invalid "garbage", is_recurring := false,
       is_posted := false, created_at := "" },
     { id := 2, content := "due", photo_data := none, photo_filename := none,
       scheduled_time := TimeStr.iso ⟨5, 0⟩, is_recurring := false,
       is_posted := false, created_at := "" }]
    { id := 1, content := "bad", photo_data := none, photo_filename := none,
      scheduled_time := TimeStr.invalid "garbage", is_recurring := false,
      is_posted := false, created_at := "" }
    (by decide) (by simp) rfl rfl
  refine ⟨h.1, ?_⟩
  have h2 := h.2
    { id := 2, content := "due", photo_data := none, photo_filename := none,
      scheduled_time := TimeStr.iso ⟨5, 0⟩, is_recurring := false,
      is_posted := false, created_at := "" }
    (by simp) rfl
  rw [h2]
  rfl

/-! ## Widgets and the conversation state machine -/

/-- The decoded callback_data payloads of the inline keyboards (the source
encodes these as underscore-separated strings and parses them positionally;
the encoding round-trips, so they are embedded as a tagged variant). -/
inductive CB where
  | add_new
  | delete (pid : Nat)
  | confirm_delete (pid : Nat)
  | cancel_delete (pid : Nat)
  | recurring_yes
  | recurring_no
  | skip_text
  | skip_photo
  | back_to_list
  | cal_nav (year month : Nat)
  | cal_day (year month day : Nat)
  | cal_confirm (year month day : Nat)
  | cal_cancel
  | cal_ignore
  | time_hour (inc : Bool) (hour minute : Int)
  | time_min (inc : Bool) (hour minute : Int)
  | time_quick_now
  | time_quick (hour minute : Int)
  | time_confirm (hour minute : Int)
  | time_cancel
  | time_ignore
deriving DecidableEq

/-- The visual tag of a populated calendar cell: the text prefix of the
button in generate_calendar (past marker, selected marker, or plain day). -/
inductive CalTag where
  | past_disabled
  | selected
  | selectable
deriving DecidableEq

/-- A populated day cell of the calendar keyboard: its day number, its visual
tag and its callback payload. -/
structure DayCell where
  day : Nat
  tag : CalTag
  cb : CB
deriving DecidableEq

/-- The calendar inline keyboard: navigation row, weekday-header row, one row
per calendar week (none marks a blank padding cell), and the control row. -/
structure CalendarMarkup where
  nav : List CB
  header : List CB
  weeks : List (List (Option DayCell))
  control : List CB
deriving DecidableEq

/-- calendar.monthcalendar: the weeks of a month as rows of seven day
numbers, Monday first, with 0 for padding cells outside the month. -/
def monthcalendar (year month : Nat) : List (List Nat) :=
  ((List.range ((pyWeekday (toOrdinal year month 1) + daysInMonth year month + 6) / 7)).map
    (fun r => (List.range 7).map (fun c =>
      if r * 7 + c < pyWeekday (toOrdinal year month 1)
          ∨ pyWeekday (toOrdinal year month 1) + daysInMonth year month ≤ r * 7 + c
      then 0
      else r * 7 + c - pyWeekday (toOrdinal year month 1) + 1)))

/-- One day cell of generate_calendar: blank for padding, past-disabled (with
an inert callback) for cells dated strictly before today, selected for the
selected day, selectable otherwise. -/
def calDayCell (year month : Nat) (selected_day : Option Nat) (today : Date)
    (day : Nat) : Option DayCell :=
  if day = 0 then none
  else if dateLtb ⟨year, month, day⟩ today then
    some ⟨day, CalTag.past_disabled, CB.cal_ignore⟩
  else if selected_day = some day then
    some ⟨day, CalTag.selected, CB.cal_day year month day⟩
  else
    some ⟨day, CalTag.selectable, CB.cal_day year month day⟩

/-- generate_calendar: the month grid with navigation (wrapping across year
boundaries), weekday headers, tagged day cells, and the control row whose
Confirm button is present exactly when selected_day is truthy. -/
def generate_calendar (year month : Nat) (selected_day : Option Nat)
    (today : Date) : CalendarMarkup :=
  { nav :=
      [CB.cal_nav (if month > 1 then year else year - 1) (if month > 1 then month - 1 else 12),
       CB.cal_ignore,
       CB.cal_nav (if month < 12 then year else year + 1) (if month < 12 then month + 1 else 1)]
    header := List.replicate 7 CB.cal_ignore
    weeks := (monthcalendar year month).map
      (fun week => week.map (calDayCell year month selected_day today))
    control :=
      (match selected_day with
       | some d => if d = 0 then [] else [CB.cal_confirm year month d]
       | none => []) ++ [CB.cal_cancel] }

/-- A button of the time-picker inline keyboard. -/
inductive TPBtn where
  | display (hour minute : Int)
  | quick (hour minute : Int)
  | quickNow
  | hourDec (hour minute : Int)
  | hourInc (hour minute : Int)
  | minDec (hour minute : Int)
  | minInc (hour minute : Int)
  | confirm (hour minute : Int)
  | cancel
deriving DecidableEq

/-- The quick_times list of generate_time_picker. -/
def quick_times : List Int := [8, 9, 10, 11, 12, 14, 16, 18, 20, 21, 22]

/-- The quick_minutes list of generate_time_picker. -/
def quick_minutes : List Int := [0, 30]

/-- generate_time_picker: the current-time display, the fixed quick-pick
rows (with the Now button), the fine-adjust row only when the current hour
or minute is not a quick-pick value, and the control row. -/
def generate_time_picker (hour minute : Int) : List (List TPBtn) :=
  [[TPBtn.display hour minute],
   [TPBtn.quick 8 0, TPBtn.quick 8 30, TPBtn.quick 9 0, TPBtn.quick 9 30],
   [TPBtn.quick 10 0, TPBtn.quick 10 30, TPBtn.quick 11 0, TPBtn.quick 11 30],
   [TPBtn.quick 12 0, TPBtn.quick 12 30, TPBtn.quick 14 0, TPBtn.quick 14 30],
   [TPBtn.quick 16 0, TPBtn.quick 16 30, TPBtn.quick 18 0, TPBtn.quick 18 30],
   [TPBtn.quick 20 0, TPBtn.quick 20 30, TPBtn.quick 21 0, TPBtn.quick 21 30],
   [TPBtn.quick 22 0, TPBtn.quick 22 30, TPBtn.quickNow]]
  ++ (if hour ∉ quick_times ∨ minute ∉ quick_minutes then
        [[TPBtn.hourDec hour minute, TPBtn.hourInc hour minute,
          TPBtn.minDec hour minute, TPBtn.minInc hour minute]]
      else [])
  ++ [[TPBtn.confirm hour minute, TPBtn.cancel]]

/-- Whether a button belongs to the fine-adjust row. -/
def isAdjustBtn : TPBtn → Bool
  | TPBtn.hourDec _ _ => true
  | TPBtn.hourInc _ _ => true
  | TPBtn.minDec _ _ => true
  | TPBtn.minInc _ _ => true
  | _ => false

/-- Whether a time-picker keyboard contains the fine-adjust row. -/
def hasAdjustRow (kb : List (List TPBtn)) : Bool :=
  kb.any (fun row => row.any isAdjustBtn)

/-- The 22 quick-pick slots as the specification enumerates them. -/
def specQuickSlots : List (Int × Int) :=
  [(8, 0), (8, 30), (9, 0), (9, 30), (10, 0), (10, 30), (11, 0), (11, 30),
   (12, 0), (12, 30), (14, 0), (14, 30), (16, 0), (16, 30), (18, 0), (18, 30),
   (20, 0), (20, 30), (21, 0), (21, 30), (22, 0), (22, 30)]

/-- The user_states values of the conversation state machine. -/
inductive UState where
  | waiting_for_password
  | waiting_for_content
  | waiting_for_photo
  | waiting_for_schedule
  | waiting_for_recurring
  | editing_text
  | editing_photo
  | editing_time
  | editing_post
deriving DecidableEq

/-- The post_data draft dictionary of a wizard session; absent keys are none.
The scheduled_time entry holds the ISO string of an instant, embedded as the
instant itself. -/
structure PostData where
  content : Option String := none
  photo_data : Option Bytes := none
  photo_filename : Option String := none
  selected_date : Option Date := none
  scheduled_time : Option DT := none
deriving DecidableEq

/-- One user_states entry: the step name plus the optional keys the handlers
read (post_data for wizard sessions, post_id and selected_date for edit
sessions; the stored UI message reference is not modelled). -/
structure Session where
  state : UState
  post_data : Option PostData := none
  post_id : Option Nat := none
  selected_date : Option Date := none
deriving DecidableEq

/-- The bot state the claims range over: the per-user sessions, the posts
table, and the AUTOINCREMENT counter. -/
structure BotState where
  user_states : List (Nat × Session)
  posts : List Post
  next_id : Nat
deriving DecidableEq

/-- An inline keyboard attached to an outgoing message. -/
inductive Markup where
  | cal (m : CalendarMarkup)
  | time (kb : List (List TPBtn))
deriving DecidableEq

/-- Outgoing interactions, one tag per distinct message of the source; the
two keyboards the claims talk about are carried structurally.  raised marks
an exception that escapes the handler (it is caught in the update loop). -/
inductive Eff where
  | authFlow
  | promptContent
  | promptPhoto
  | promptPhotoAgain
  | promptUseCalendar
  | newMsg (m : Markup)
  | editMsg (m : Markup)
  | errorNoDate
  | errorPastTime
  | errorDateTime
  | errorValidation
  | errorSaving
  | errorStartOver
  | successCreated (id : Nat)
  | showRecurringPrompt (t : DT)
  | cancelledMsg
  | showList
  | confirmDeleteDialog (id : Nat)
  | deletedMsg (id : Nat)
  | deleteFailed (id : Nat)
  | notFound (id : Nat)
  | editSaved (id : Nat)
  | updateFailed (id : Nat)
  | rescheduled (id : Nat)
  | scheduledNow (id : Nat)
  | raised
deriving DecidableEq

/-- user_states.get lookup. -/
def lookupSession : List (Nat × Session) → Nat → Option Session
  | [], _ => none
  | (u, s) :: rest, uid => if u = uid then some s else lookupSession rest uid

/-- Dictionary assignment user_states with a key replaced or added. -/
def setSession (l : List (Nat × Session)) (uid : Nat) (s : Session) :
    List (Nat × Session) :=
  if l.any (fun p => p.1 == uid) then
    l.map (fun p => if p.1 = uid then (uid, s) else p)
  else l ++ [(uid, s)]

/-- del user_states entry. -/
def removeSession (l : List (Nat × Session)) (uid : Nat) :
    List (Nat × Session) :=
  l.filter (fun p => p.1 != uid)

/-- Python truthiness of an optional string (None and the empty string are
falsy). -/
def pyTruthyStr (s : Option String) : Bool :=
  match s with
  | none => false
  | some t => !t.data.isEmpty

/-- Python truthiness of an optional bytes payload (None and empty bytes are
falsy). -/
def pyTruthyBytes (b : Option Bytes) : Bool :=
  match b with
  | none => false
  | some l => !l.isEmpty

/-- The hour of an instant. -/
def DT.hour (t : DT) : Nat := t.tod / 3600000000

/-- The minute of an instant. -/
def DT.minute (t : DT) : Nat := t.tod % 3600000000 / 60000000

/-- Whether strptime on the selected-date string and the replace of hour and
minute succeed (the date components denote a real calendar date). -/
def dateOk (d : Date) : Bool :=
  1 ≤ d.year && 1 ≤ d.month && d.month ≤ 12 && 1 ≤ d.day
    && d.day ≤ daysInMonth d.year d.month

/-- The candidate instant built by combining a selected date with the chosen
hour and minute (seconds and microseconds are zero). -/
def candDT (d : Date) (hour minute : Int) : DT :=
  ⟨toOrdinal d.year d.month d.day, (hour.toNat * 60 + minute.toNat) * 60 * 1000000⟩

/-- The row INSERT of add_post (created_at is the externally supplied column
default, abstracted to the empty string). -/
def mkPostRecord (nid : Nat) (content : String) (photo_data : Option Bytes)
    (photo_filename : Option String) (ts : TimeStr) (is_recurring : Bool) : Post :=
  { id := nid, content := content, photo_data := photo_data,
    photo_filename := photo_filename, scheduled_time := ts,
    is_recurring := is_recurring, is_posted := false, created_at := "" }

/-- add_post: INSERT a new row and return the assigned id. -/
def add_post (st : BotState) (content : String) (photo_data : Option Bytes)
    (photo_filename : Option String) (ts : TimeStr) (is_recurring : Bool) :
    BotState × Nat :=
  ({ st with
      posts := st.posts ++ [mkPostRecord st.next_id content photo_data photo_filename ts is_recurring],
      next_id := st.next_id + 1 },
   st.next_id)

/-- finish_add_post: validate the draft (content present or photo present,
under Python truthiness), then persist the post and destroy the session; on
validation failure report the error with no store write and the session kept;
a missing scheduled_time key raises inside the try block and is reported as a
saving error with no store write. -/
def finish_add_post (st : BotState) (uid : Nat) (is_recurring : Bool) :
    BotState × List Eff :=
  match lookupSession st.user_states uid with
  | none => (st, [])
  | some s =>
    match s.post_data with
    | none => (st, [Eff.raised])
    | some pd =>
      if !pyTruthyStr pd.content && !pyTruthyBytes pd.photo_data then
        (st, [Eff.errorValidation])
      else
        match pd.scheduled_time with
        | none => (st, [Eff.errorSaving])
        | some t =>
          let r := add_post st (pd.content.getD "") pd.photo_data pd.photo_filename
            (isoformat t) is_recurring
          ({ r.1 with user_states := removeSession r.1.user_states uid },
           [Eff.successCreated r.2])

/-- _handle_edit_time_confirm: combine the edit-flow selected date with the
chosen hour and minute, reject a strictly past candidate, otherwise write the
new scheduled_time for the target post and destroy the session. -/
def _handle_edit_time_confirm (now : DT) (st : BotState) (uid : Nat)
    (hour minute : Int) : BotState × List Eff :=
  match lookupSession st.user_states uid with
  | none => (st, [])
  | some s =>
    if s.state = UState.editing_time then
      match s.post_id with
      | none => (st, [Eff.raised])
      | some pid =>
        match s.selected_date with
        | none => (st, [Eff.errorNoDate])
        | some d =>
          if dateOk d && decide (0 ≤ hour) && decide (hour < 24)
              && decide (0 ≤ minute) && decide (minute < 60) then
            if dtLtb (candDT d hour minute) now then (st, [Eff.errorPastTime])
            else
              ({ st with
                  posts := update_post st.posts pid
                    { scheduled_time := some (isoformat (candDT d hour minute)) },
                  user_states := removeSession st.user_states uid },
               (if updateFound st.posts pid then [Eff.rescheduled pid]
                else [Eff.updateFailed pid]) ++ [Eff.showList])
          else (st, [Eff.errorDateTime])
    else (st, [])

/-- _handle_time_confirm: in a wizard session, combine the recorded date with
the chosen hour and minute; reject a missing date, a combination that raises,
or a strictly past candidate (all with the session and store untouched);
otherwise record the instant on the draft and advance to the recurrence
step.  Without a wizard draft the call falls through to the edit variant. -/
def _handle_time_confirm (now : DT) (st : BotState) (uid : Nat)
    (hour minute : Int) : BotState × List Eff :=
  match lookupSession st.user_states uid with
  | none => (st, [])
  | some s =>
    match s.post_data with
    | none => _handle_edit_time_confirm now st uid hour minute
    | some pd =>
      match pd.selected_date with
      | none => (st, [Eff.errorNoDate])
      | some d =>
        if dateOk d && decide (0 ≤ hour) && decide (hour < 24)
            && decide (0 ≤ minute) && decide (minute < 60) then
          if dtLtb (candDT d hour minute) now then (st, [Eff.errorPastTime])
          else
            ({ st with
                user_states := setSession st.user_states uid
                  { s with state := UState.waiting_for_recurring,
                           post_data := some { pd with
                             scheduled_time := some (candDT d hour minute) } } },
             [Eff.showRecurringPrompt (candDT d hour minute)])
        else (st, [Eff.errorDateTime])

/-- _handle_edit_time_confirm_now: write the current instant as the target
post's schedule and destroy the session. -/
def _handle_edit_time_confirm_now (now : DT) (st : BotState) (uid : Nat) :
    BotState × List Eff :=
  match lookupSession st.user_states uid with
  | none => (st, [])
  | some s =>
    if s.state = UState.editing_time then
      match s.post_id with
      | none => (st, [Eff.raised])
      | some pid =>
        ({ st with
            posts := update_post st.posts pid
              { scheduled_time := some (isoformat now) },
            user_states := removeSession st.user_states uid },
         (if updateFound st.posts pid then [Eff.scheduledNow pid]
          else [Eff.updateFailed pid]) ++ [Eff.showList])
    else (st, [])

/-- _handle_time_confirm_now: in a wizard session, record the current instant
on the draft and advance to the recurrence step; otherwise the edit variant. -/
def _handle_time_confirm_now (now : DT) (st : BotState) (uid : Nat) :
    BotState × List Eff :=
  match lookupSession st.user_states uid with
  | none => (st, [])
  | some s =>
    match s.post_data with
    | none => _handle_edit_time_confirm_now now st uid
    | some pd =>
      ({ st with
          user_states := setSession st.user_states uid
            { s with state := UState.waiting_for_recurring,
                     post_data := some { pd with scheduled_time := some now } } },
       [Eff.showRecurringPrompt now])

/-- _handle_calendar_edit_confirm: in an editing_time session, record the
selected date and re-render the time picker, defaulting to the target post's
current stored time when it parses and to 12:00 otherwise. -/
def _handle_calendar_edit_confirm (st : BotState) (uid : Nat)
    (year month day : Nat) : BotState × List Eff :=
  match lookupSession st.user_states uid with
  | none => (st, [])
  | some s =>
    if s.state = UState.editing_time then
      let st' := { st with
        user_states := setSession st.user_states uid
          { s with selected_date := some ⟨year, month, day⟩ } }
      match s.post_id with
      | none => (st', [Eff.raised])
      | some pid =>
        match getPost st.posts pid with
        | some p =>
          match fromisoformat p.scheduled_time with
          | some t =>
            (st', [Eff.editMsg (Markup.time
              (generate_time_picker (Int.ofNat t.hour) (Int.ofNat t.minute)))])
          | none =>
            (st', [Eff.editMsg (Markup.time (generate_time_picker 12 0))])
        | none =>
          (st', [Eff.editMsg (Markup.time (generate_time_picker 12 0))])
    else (st, [])

/-- start_add_post_flow: replace any prior session with a fresh wizard
session awaiting the text content. -/
def start_add_post_flow (st : BotState) (uid : Nat) : BotState × List Eff :=
  ({ st with user_states := (setSession st.user_states uid
      { state := UState.waiting_for_content, post_data := some {} }) },
   [Eff.promptContent])

/-- Python "x or default" on an optional filename (None and the empty string
fall back to the default). -/
def pyOrStr (o : Option String) (dflt : String) : String :=
  match o with
  | none => dflt
  | some s => if s.isEmpty then dflt else s

/-- Python str.lower, as character-wise ASCII case folding (every token the
source compares against is ASCII). -/
def pyLower (s : String) : String := ⟨s.data.map Char.toLower⟩

/-- Python str.strip: drop leading and trailing whitespace. -/
def pyStrip (s : String) : String :=
  ⟨((s.data.dropWhile Char.isWhitespace).reverse.dropWhile Char.isWhitespace).reverse⟩

/-- The editing_text branch of _handle_edit_message: store the new text (or
clear it on "delete"), destroy the session and refresh the list. -/
def handleEditTextMsg (st : BotState) (uid : Nat) (s : Session) (text : String) :
    BotState × List Eff :=
  match s.post_id with
  | none => (st, [Eff.raised])
  | some pid =>
    ({ st with
        posts := update_post st.posts pid
          { content := some (if pyStrip (pyLower text) = "delete" then "" else text) },
        user_states := removeSession st.user_states uid },
     (if updateFound st.posts pid then [Eff.editSaved pid]
      else [Eff.updateFailed pid]) ++ [Eff.showList])

/-- The editing_photo branch of _handle_edit_message: replace or remove the
stored photo, or prompt again when neither a photo nor "delete" arrived. -/
def handleEditPhotoMsg (st : BotState) (uid : Nat) (s : Session) (text : String)
    (photo : Option (Bytes × Option String)) : BotState × List Eff :=
  match s.post_id with
  | none => (st, [Eff.raised])
  | some pid =>
    if pyStrip (pyLower text) = "delete" then
      ({ st with
          posts := update_post st.posts pid
            { photo_data := some none, photo_filename := some none },
          user_states := removeSession st.user_states uid },
       (if updateFound st.posts pid then [Eff.editSaved pid]
        else [Eff.updateFailed pid]) ++ [Eff.showList])
    else
      match photo with
      | some (bytes, fn) =>
        ({ st with
            posts := update_post st.posts pid
              { photo_data := some (some bytes), photo_filename := some fn },
            user_states := removeSession st.user_states uid },
         (if updateFound st.posts pid then [Eff.editSaved pid]
          else [Eff.updateFailed pid]) ++ [Eff.showList])
      | none => (st, [Eff.promptPhotoAgain])

/-- process_message for a user holding a session (message handling without a
session only dispatches commands and the password gate, both external to this
core).  today is the calendar date of now, used to anchor the calendar. -/
def process_message (today : Date) (st : BotState) (uid : Nat)
    (text : String) (photo : Option (Bytes × Option String)) :
    BotState × List Eff :=
  match lookupSession st.user_states uid with
  | none => (st, [])
  | some s =>
    match s.state with
    | UState.waiting_for_password => (st, [Eff.authFlow])
    | UState.editing_text => handleEditTextMsg st uid s text
    | UState.editing_photo => handleEditPhotoMsg st uid s text photo
    | UState.editing_time => (st, [Eff.promptUseCalendar])
    | UState.editing_post =>
      ({ st with user_states := removeSession st.user_states uid },
       [Eff.showList])
    | UState.waiting_for_content =>
      match s.post_data with
      | none => (st, [Eff.raised])
      | some pd =>
        ({ st with
            user_states := setSession st.user_states uid
              { s with state := UState.waiting_for_photo,
                       post_data := some { pd with
                         content := some (if pyStrip (pyLower text) = "skip" then "" else text) } } },
         [Eff.promptPhoto])
    | UState.waiting_for_photo =>
      match s.post_data with
      | none => (st, [Eff.raised])
      | some pd =>
        match photo with
        | some (bytes, fn) =>
          ({ st with
              user_states := setSession st.user_states uid
                { s with state := UState.waiting_for_schedule,
                         post_data := some { pd with
                           photo_data := some bytes,
                           photo_filename := some (pyOrStr fn "photo.jpg") } } },
           [Eff.newMsg (Markup.cal (generate_calendar today.year today.month none today))])
        | none =>
          if pyStrip (pyLower text) = "skip" then
            ({ st with
                user_states := setSession st.user_states uid
                  { s with state := UState.waiting_for_schedule } },
             [Eff.newMsg (Markup.cal (generate_calendar today.year today.month none today))])
          else (st, [Eff.promptPhotoAgain])
    | UState.waiting_for_schedule => (st, [Eff.promptUseCalendar])
    | UState.waiting_for_recurring =>
      match s.post_data with
      | none => (st, [Eff.raised])
      | some _ =>
        finish_add_post st uid
          (["yes", "y", "daily", "repeat"].contains (pyStrip (pyLower text)))

/-- process_callback_query, after the answerCallbackQuery acknowledgement and
the authorization preamble (authorization is an external collaborator; the
calendar, time, recurrence and skip payloads bypass it in the source).  today
is the calendar date of now. -/
def process_callback_query (now : DT) (today : Date) (st : BotState) (uid : Nat)
    (cb : CB) : BotState × List Eff :=
  match cb with
  | CB.add_new => start_add_post_flow st uid
  | CB.delete pid =>
    match getPost st.posts pid with
    | some _ => (st, [Eff.confirmDeleteDialog pid])
    | none => (st, [Eff.notFound pid])
  | CB.confirm_delete pid =>
    let r := delete_post st.posts pid
    ({ st with posts := r.1 },
     if r.2 then [Eff.deletedMsg pid, Eff.showList] else [Eff.deleteFailed pid])
  | CB.cancel_delete _ => (st, [Eff.showList])
  | CB.recurring_yes => finish_add_post st uid true
  | CB.recurring_no => finish_add_post st uid false
  | CB.skip_text =>
    match lookupSession st.user_states uid with
    | some s =>
      match s.post_data with
      | some pd =>
        ({ st with
            user_states := setSession st.user_states uid
              { s with state := UState.waiting_for_photo,
                       post_data := some { pd with content := some "" } } },
         [Eff.promptPhoto])
      | none => (st, [Eff.errorStartOver])
    | none => (st, [Eff.errorStartOver])
  | CB.skip_photo =>
    match lookupSession st.user_states uid with
    | some s =>
      match s.post_data with
      | some _ =>
        ({ st with
            user_states := setSession st.user_states uid
              { s with state := UState.waiting_for_schedule } },
         [Eff.newMsg (Markup.cal (generate_calendar today.year today.month none today))])
      | none => (st, [Eff.errorStartOver])
    | none => (st, [Eff.errorStartOver])
  | CB.back_to_list =>
    ({ st with user_states := removeSession st.user_states uid }, [Eff.showList])
  | CB.cal_nav y m =>
    (st, [Eff.editMsg (Markup.cal (generate_calendar y m none today))])
  | CB.cal_day y m d =>
    (st, [Eff.editMsg (Markup.cal (generate_calendar y m (some d) today))])
  | CB.cal_confirm y m d =>
    match lookupSession st.user_states uid with
    | some s =>
      match s.post_data with
      | some pd =>
        ({ st with
            user_states := setSession st.user_states uid
              { s with post_data := some { pd with selected_date := some ⟨y, m, d⟩ } } },
         [Eff.editMsg (Markup.time (generate_time_picker
           (Int.ofNat (if now.hour < 23 then now.hour + 1 else 12)) 0))])
      | none => _handle_calendar_edit_confirm st uid y m d
    | none => _handle_calendar_edit_confirm st uid y m d
  | CB.cal_cancel =>
    match lookupSession st.user_states uid with
    | some s =>
      match s.post_data with
      | some _ =>
        ({ st with user_states := removeSession st.user_states uid },
         [Eff.cancelledMsg])
      | none =>
        ({ st with user_states := removeSession st.user_states uid },
         [Eff.showList])
    | none =>
      ({ st with user_states := removeSession st.user_states uid },
       [Eff.showList])
  | CB.cal_ignore => (st, [])
  | CB.time_hour inc h m =>
    (st, [Eff.editMsg (Markup.time
      (generate_time_picker (if inc then (h + 1).emod 24 else (h - 1).emod 24) m))])
  | CB.time_min inc h m =>
    (st, [Eff.editMsg (Markup.time
      (generate_time_picker h (if inc then (m + 30).emod 60 else (m - 30).emod 60)))])
  | CB.time_quick_now => _handle_time_confirm_now now st uid
  | CB.time_quick h m => _handle_time_confirm now st uid h m
  | CB.time_confirm h m => _handle_time_confirm now st uid h m
  | CB.time_cancel =>
    match lookupSession st.user_states uid with
    | some s =>
      match s.post_data with
      | some _ =>
        (st, [Eff.editMsg (Markup.cal (generate_calendar today.year today.month none today))])
      | none =>
        ({ st with user_states := removeSession st.user_states uid },
         [Eff.showList])
    | none =>
      ({ st with user_states := removeSession st.user_states uid },
       [Eff.showList])
  | CB.time_ignore => (st, [])

/-! ## Claims about the widgets and the wizard -/

theorem mem_specQuickSlots_iff (h m : Int) :
    (h, m) ∈ specQuickSlots ↔ (h ∈ quick_times ∧ m ∈ quick_minutes) := by
  have he : specQuickSlots = quick_times.product quick_minutes := by decide
  rw [he]
  exact List.mem_product

/-- C7: the time-picker render contains the fine-adjust row exactly when the
current hour and minute pair is not one of the 22 quick-pick slots, and the
four fine-adjust callbacks re-render with the hour moved by one wrapping
modulo 24 or the minute moved by thirty wrapping modulo 60, leaving the
session (and the whole bot state) untouched. -/
theorem C7_time_picker_adjust (hour minute : Int) (now : DT) (today : Date)
    (st : BotState) (uid : Nat) :
    (hasAdjustRow (generate_time_picker hour minute) = true
      ↔ (hour, minute) ∉ specQuickSlots)
    ∧ process_callback_query now today st uid (CB.time_hour true hour minute)
        = (st, [Eff.editMsg (Markup.time (generate_time_picker ((hour + 1).emod 24) minute))])
    ∧ process_callback_query now today st uid (CB.time_hour false hour minute)
        = (st, [Eff.editMsg (Markup.time (generate_time_picker ((hour - 1).emod 24) minute))])
    ∧ process_callback_query now today st uid (CB.time_min true hour minute)
        = (st, [Eff.editMsg (Markup.time (generate_time_picker hour ((minute + 30).emod 60)))])
    ∧ process_callback_query now today st uid (CB.time_min false hour minute)
        = (st, [Eff.editMsg (Markup.time (generate_time_picker hour ((minute - 30).emod 60)))]) := by
  refine ⟨?_, rfl, rfl, rfl, rfl⟩
  rw [mem_specQuickSlots_iff]
  by_cases hc : hour ∉ quick_times ∨ minute ∉ quick_minutes
  · constructor
    · intro _
      tauto
    · intro _
      simp [generate_time_picker, hasAdjustRow, hc, isAdjustBtn]
  · constructor
    · intro hrow
      exfalso
      rw [generate_time_picker, if_neg hc] at hrow
      simp [hasAdjustRow, isAdjustBtn] at hrow
    · intro hn
      exact absurd (by tauto) hc

theorem calDayCell_spec (year month : Nat) (sel : Option Nat) (today : Date)
    (day : Nat) (cell : DayCell)
    (h : calDayCell year month sel today day = some cell) :
    cell.day = day
    ∧ (cell.tag = CalTag.past_disabled ↔ dateLtb ⟨year, month, day⟩ today = true)
    ∧ (cell.tag = CalTag.selected
        ↔ (dateLtb ⟨year, month, day⟩ today = false ∧ sel = some day))
    ∧ (cell.tag = CalTag.selectable
        ↔ (dateLtb ⟨year, month, day⟩ today = false ∧ sel ≠ some day))
    ∧ (dateLtb ⟨year, month, day⟩ today = true → cell.cb = CB.cal_ignore) := by
  unfold calDayCell at h
  by_cases h0 : day = 0
  · rw [if_pos h0] at h
    cases h
  · rw [if_neg h0] at h
    by_cases hpast : dateLtb ⟨year, month, day⟩ today = true
    · rw [if_pos hpast] at h
      cases h
      exact ⟨rfl, by simp [hpast], by simp [hpast], by simp [hpast], fun _ => rfl⟩
    · have hpast' : dateLtb ⟨year, month, day⟩ today = false :=
        Bool.not_eq_true _ ▸ (by simpa using hpast)
      rw [if_neg hpast] at h
      by_cases hsel : sel = some day
      · rw [if_pos hsel] at h
        cases h
        exact ⟨rfl, by simp [hpast'], by simp [hpast', hsel],
          by simp [hpast', hsel], by simp [hpast']⟩
      · rw [if_neg hsel] at h
        cases h
        exact ⟨rfl, by simp [hpast'], by simp [hpast', hsel],
          by simp [hpast', hsel], by simp [hpast']⟩

theorem calendar_control_spec (year month : Nat) (sel : Option Nat) (today : Date) :
    ((∃ d, CB.cal_confirm year month d ∈ (generate_calendar year month sel today).control)
      ↔ (∃ d, sel = some d ∧ d ≠ 0))
    ∧ CB.cal_cancel ∈ (generate_calendar year month sel today).control := by
  unfold generate_calendar
  cases sel with
  | none => simp
  | some d =>
    by_cases hd : d = 0
    · simp [hd]
    · simp [hd]

/-- C5: every populated cell of the rendered month grid carries exactly one
of the three tags, determined by comparing the cell date with today and with
the selected day (past-disabled exactly on cells strictly before today,
selected exactly on the non-past selected day, selectable otherwise); a cell
strictly before today carries the inert callback, whose handling leaves the
bot state unchanged and produces no output; and the control row has a
Confirm action exactly when a (truthy) day is selected, plus always Cancel. -/
theorem C5_calendar_render (year month : Nat) (selected_day : Option Nat)
    (today : Date) (week : List (Option DayCell)) (cell : DayCell)
    (hw : week ∈ (generate_calendar year month selected_day today).weeks)
    (hc : some cell ∈ week) :
    (cell.tag = CalTag.past_disabled
      ↔ dateLtb ⟨year, month, cell.day⟩ today = true)
    ∧ (cell.tag = CalTag.selected
        ↔ (dateLtb ⟨year, month, cell.day⟩ today = false
            ∧ selected_day = some cell.day))
    ∧ (cell.tag = CalTag.selectable
        ↔ (dateLtb ⟨year, month, cell.day⟩ today = false
            ∧ selected_day ≠ some cell.day))
    ∧ (dateLtb ⟨year, month, cell.day⟩ today = true →
        cell.cb = CB.cal_ignore
        ∧ ∀ (now : DT) (st : BotState) (uid : Nat),
            process_callback_query now today st uid CB.cal_ignore = (st, []))
    ∧ ((∃ d, CB.cal_confirm year month d
          ∈ (generate_calendar year month selected_day today).control)
        ↔ (∃ d, selected_day = some d ∧ d ≠ 0))
    ∧ CB.cal_cancel ∈ (generate_calendar year month selected_day today).control := by
  have hctrl := calendar_control_spec year month selected_day today
  simp only [generate_calendar, List.mem_map] at hw
  obtain ⟨w0, _, rfl⟩ := hw
  rw [List.mem_map] at hc
  obtain ⟨d0, _, hcell⟩ := hc
  have hspec := calDayCell_spec year month selected_day today d0 cell hcell
  rw [hspec.1]
  exact ⟨hspec.2.1, hspec.2.2.1, hspec.2.2.2.1,
    fun hp => ⟨hspec.2.2.2.2 hp, fun _ _ _ => rfl⟩, hctrl.1, hctrl.2⟩

/-- Witness for C5 in January 2024 with today 2024-01-10 and day 15 selected:
the cell for day 1 sits in the first week, is past-disabled and inert, and
the control row carries Confirm and Cancel. -/
theorem C5_calendar_render_witness :
    (⟨1, CalTag.past_disabled, CB.cal_ignore⟩ : DayCell).tag = CalTag.past_disabled
    ∧ (⟨1, CalTag.past_disabled, CB.cal_ignore⟩ : DayCell).cb = CB.cal_ignore
    ∧ CB.cal_cancel ∈ (generate_calendar 2024 1 (some 15) ⟨2024, 1, 10⟩).control := by
  have h := C5_calendar_render 2024 1 (some 15) ⟨2024, 1, 10⟩
    [some ⟨1, CalTag.past_disabled, CB.cal_ignore⟩,
     some ⟨2, CalTag.past_disabled, CB.cal_ignore⟩,
     some ⟨3, CalTag.past_disabled, CB.cal_ignore⟩,
     some ⟨4, CalTag.past_disabled, CB.cal_ignore⟩,
     some ⟨5, CalTag.past_disabled, CB.cal_ignore⟩,
     some ⟨6, CalTag.past_disabled, CB.cal_ignore⟩,
     some ⟨7, CalTag.past_disabled, CB.cal_ignore⟩]
    ⟨1, CalTag.past_disabled, CB.cal_ignore⟩
    (by decide) (by decide)
  exact ⟨h.1.mpr (by decide), (h.2.2.2.1 (by decide)).1, h.2.2.2.2.2⟩

/-- A concrete wizard session sitting at the time step with 2024-01-15
selected, and the bot state holding it for user 7. -/
def sampleTimeSession : Session :=
  { state := UState.waiting_for_schedule,
    post_data := some { content := some "hi", selected_date := some ⟨2024, 1, 15⟩ } }

/-- The concrete bot state for the time-confirm scenarios. -/
def sampleTimeState : BotState :=
  { user_states := [(7, sampleTimeSession)], posts := [], next_id := 1 }

/-- C4 counterexample: with 2024-01-15 selected and 09:00 chosen, at a
current instant exactly equal to the candidate 2024-01-15T09:00:00 (ordinal
738900), the candidate is not strictly later than now, yet the confirmation
is accepted — the session mutates to the recurrence step with the instant
recorded — contradicting the claim that it is rejected with no state
change. -/
theorem C4_counterexample :
    ¬(_handle_time_confirm ⟨738900, 32400000000⟩ sampleTimeState 7 9 0).1
        = sampleTimeState
    ∧ lookupSession
        (_handle_time_confirm ⟨738900, 32400000000⟩ sampleTimeState 7 9 0).1.user_states 7
      = some { state := UState.waiting_for_recurring,
               post_data := some { content := some "hi",
                                   selected_date := some ⟨2024, 1, 15⟩,
                                   scheduled_time := some ⟨738900, 32400000000⟩ } } := by
  exact ⟨by decide, by decide⟩

/-- C4 (amended): in a wizard session at the time step, a combined candidate
instant strictly earlier than the current instant is rejected with the
corrective past-time message, the whole bot state (sessions and store)
unchanged; a candidate exactly equal to the current instant is accepted. -/
theorem C4_time_confirm_rejects_past (now : DT) (st : BotState) (uid : Nat)
    (hour minute : Int) (s : Session) (pd : PostData) (d : Date)
    (hs : lookupSession st.user_states uid = some s)
    (hpd : s.post_data = some pd)
    (hd : pd.selected_date = some d)
    (hok : dateOk d = true)
    (hh0 : 0 ≤ hour) (hh1 : hour < 24) (hm0 : 0 ≤ minute) (hm1 : minute < 60)
    (hpast : dtLtb (candDT d hour minute) now = true) :
    _handle_time_confirm now st uid hour minute = (st, [Eff.errorPastTime]) := by
  simp [_handle_time_confirm, hs, hpd, hd, hok, hh0, hh1, hm0, hm1, hpast]

/-- Witness for the amended C4: now one microsecond after the candidate. -/
theorem C4_time_confirm_rejects_past_witness :
    _handle_time_confirm ⟨738900, 32400000001⟩ sampleTimeState 7 9 0
      = (sampleTimeState, [Eff.errorPastTime]) :=
  C4_time_confirm_rejects_past ⟨738900, 32400000001⟩ sampleTimeState 7 9 0
    sampleTimeSession
    { content := some "hi", selected_date := some ⟨2024, 1, 15⟩ }
    ⟨2024, 1, 15⟩ rfl rfl rfl (by decide) (by decide) (by decide) (by decide)
    (by decide) (by decide)

/-- C8: at final commit with a session whose draft has a scheduled instant,
a draft with neither truthy content nor a truthy photo is reported as a
validation error and nothing is persisted; otherwise the post built from the
draft is appended to the store, the session is destroyed, and the persisted
record has non-empty content or a present photo. -/
theorem C8_commit_validation (st : BotState) (uid : Nat) (rec : Bool)
    (s : Session) (pd : PostData) (t : DT)
    (hs : lookupSession st.user_states uid = some s)
    (hpd : s.post_data = some pd)
    (ht : pd.scheduled_time = some t) :
    ((pyTruthyStr pd.content = false ∧ pyTruthyBytes pd.photo_data = false) →
        finish_add_post st uid rec = (st, [Eff.errorValidation]))
    ∧ ((pyTruthyStr pd.content = true ∨ pyTruthyBytes pd.photo_data = true) →
        finish_add_post st uid rec =
          ({ st with
              posts := st.posts ++ [mkPostRecord st.next_id (pd.content.getD "")
                pd.photo_data pd.photo_filename (isoformat t) rec],
              next_id := st.next_id + 1,
              user_states := removeSession st.user_states uid },
           [Eff.successCreated st.next_id])
        ∧ ((mkPostRecord st.next_id (pd.content.getD "") pd.photo_data
              pd.photo_filename (isoformat t) rec).content ≠ ""
            ∨ pyTruthyBytes (mkPostRecord st.next_id (pd.content.getD "")
                pd.photo_data pd.photo_filename (isoformat t) rec).photo_data
              = true)) := by
  constructor
  · rintro ⟨h1, h2⟩
    simp [finish_add_post, hs, hpd, h1, h2]
  · intro h
    have hcond : (!pyTruthyStr pd.content && !pyTruthyBytes pd.photo_data) = false := by
      rcases h with h | h <;> simp [h]
    constructor
    · simp only [finish_add_post, hs, hpd, ht, hcond, Bool.false_eq_true, if_false,
        add_post]
    · rcases h with h | h
      · left
        cases hco : pd.content with
        | none => rw [hco] at h; simp [pyTruthyStr] at h
        | some c =>
          rw [hco] at h
          simp only [mkPostRecord, hco, Option.getD_some]
          intro he
          rw [he] at h
          exact absurd h (by decide)
      · right
        simpa [mkPostRecord] using h

/-- A concrete session at the recurrence step with content "hi" and a
scheduled instant recorded on the draft. -/
def sampleCommitSession : Session :=
  { state := UState.waiting_for_recurring,
    post_data := some { content := some "hi", scheduled_time := some ⟨738900, 0⟩ } }

/-- A concrete bot state holding sampleCommitSession for user 7. -/
def sampleCommitState : BotState :=
  { user_states := [(7, sampleCommitSession)], posts := [], next_id := 1 }

/-- Witness for C8: a concrete draft with content present commits and the
stored record satisfies the invariant. -/
theorem C8_commit_validation_witness :
    finish_add_post sampleCommitState 7 false
      = ({ user_states := [],
           posts := [mkPostRecord 1 "hi" none none (isoformat ⟨738900, 0⟩) false],
           next_id := 2 },
         [Eff.successCreated 1])
    ∧ (mkPostRecord 1 "hi" none none (isoformat ⟨738900, 0⟩) false).content ≠ "" := by
  have h := (C8_commit_validation sampleCommitState 7 false sampleCommitSession
    { content := some "hi", scheduled_time := some ⟨738900, 0⟩ }
    ⟨738900, 0⟩ (by decide) (by decide) (by decide)).2 (Or.inl (by decide))
  refine ⟨?_, by decide⟩
  rw [h.1]
  decide

/-- C10: in the recurrence step, a free-text reply commits immediately with
the recurrence flag set exactly when the lowercased, trimmed text is one of
yes, y, daily, repeat; any other text is not rejected and commits with the
flag false. -/
theorem C10_recurring_text (today : Date) (st : BotState) (uid : Nat)
    (text : String) (photo : Option (Bytes × Option String))
    (s : Session) (pd : PostData)
    (hs : lookupSession st.user_states uid = some s)
    (hst : s.state = UState.waiting_for_recurring)
    (hpd : s.post_data = some pd) :
    process_message today st uid text photo
      = finish_add_post st uid (["yes", "y", "daily", "repeat"].contains (pyStrip (pyLower text)))
    ∧ ((["yes", "y", "daily", "repeat"].contains (pyStrip (pyLower text))) = true
        ↔ (pyStrip (pyLower text) = "yes" ∨ pyStrip (pyLower text) = "y"
            ∨ pyStrip (pyLower text) = "daily" ∨ pyStrip (pyLower text) = "repeat"))
    ∧ ((["yes", "y", "daily", "repeat"].contains (pyStrip (pyLower text))) = false →
        process_message today st uid text photo = finish_add_post st uid false) := by
  have h1 : process_message today st uid text photo
      = finish_add_post st uid (["yes", "y", "daily", "repeat"].contains (pyStrip (pyLower text))) := by
    simp [process_message, hs, hst, hpd]
  have h2 : (["yes", "y", "daily", "repeat"].contains (pyStrip (pyLower text))) = true
      ↔ (pyStrip (pyLower text) = "yes" ∨ pyStrip (pyLower text) = "y"
          ∨ pyStrip (pyLower text) = "daily" ∨ pyStrip (pyLower text) = "repeat") := by
    simp [List.contains]
  refine ⟨h1, h2, ?_⟩
  intro hf
  rw [h1, hf]

/-- Witness for C10: the reply YES (with surrounding space) sets the flag. -/
theorem C10_recurring_text_witness :
    process_message ⟨2024, 1, 10⟩ sampleCommitState 7 " YES " none
      = finish_add_post sampleCommitState 7 true := by
  have h := (C10_recurring_text ⟨2024, 1, 10⟩ sampleCommitState 7 " YES " none
    sampleCommitSession
    { content := some "hi", scheduled_time := some ⟨738900, 0⟩ }
    (by decide) (by decide) (by decide)).1
  rw [h]
  have he : (["yes", "y", "daily", "repeat"].contains (pyStrip (pyLower " YES "))) = true := by
    decide
  rw [he]
